import Mathlib

/-!
Shallow embedding of the budget-generator backend
(quote lifecycle, atomic stock ledger, payment records, webhook reconciler).

Sources embedded:
- src/src/services/stock.service.ts   (validateStock, decrementStock, incrementStock)
- src/src/models/Quote.ts             (calculateTotals, expireOldQuotes)
- src/src/controllers/quoteController.ts (cancelQuote, handlePaymentWebhook)
- src/unnamed/part_004                (Payment schema: unique quote index, pre-save hooks)
- src/unnamed/part_001                (createQuoteValidation)

Conventions: MongoDB collections are association lists of records keyed by a
String id; a `wf` predicate states the id-uniqueness the database guarantees.
Stock counters are `Int` (the invariant of interest is their non-negativity).
Quantities of stock items are `Nat`: every construction site of a StockItem in
the source passes a quote-line quantity, validated to be a positive integer
(QuoteItemSchema `min: 1`, `isInt`; createQuoteValidation `isInt({min:1})`).
A `session.withTransaction` body is embedded as an `Except String` computation:
a thrown error aborts the transaction, rolling the database back to its state
at the start of the call.
-/

namespace BudgetGen

/-! ## Stock ledger — stock.service.ts -/

/-- A document of the Product collection (the fields the stock ledger reads). -/
structure ProductRec where
  id : String
  name : String
  stock : Int
  isActive : Bool
deriving Repr, DecidableEq

/-- The Product collection. -/
abbrev DB := List ProductRec

/-- Well-formedness the database guarantees: `_id` is unique, and the schema
invariant `stock >= 0` holds for persisted documents. -/
def wfDB (db : DB) : Prop :=
  (db.map ProductRec.id).Nodup ∧ ∀ p ∈ db, 0 ≤ p.stock

instance : DecidablePred wfDB := fun db => by
  unfold wfDB; infer_instance

/-- `Product.find({ _id: pid, isActive: true })` followed by the map lookup
used by the stock service: resolves only active products. -/
def findActive (db : DB) (pid : String) : Option ProductRec :=
  db.find? (fun p => p.id == pid && p.isActive)

/-- Stock read used to state theorems: the stock of the (unique) document with
this id, 0 when no such product exists. -/
def stockOf (db : DB) (pid : String) : Int :=
  match db.find? (fun p => p.id == pid) with
  | some p => p.stock
  | none => 0

/-- `ProductSchema.methods.validateStock`: `this.stock >= quantity && quantity > 0`. -/
def validStockMethod (p : ProductRec) (quantity : Nat) : Bool :=
  (quantity : Int) ≤ p.stock && 0 < quantity

/-- An entry of the `items` argument of the stock operations. -/
structure StockItem where
  productId : String
  quantity : Nat
deriving Repr, DecidableEq

/-- An error entry of `StockValidationResult` (productId, productName,
requested, available). -/
structure StockValidationError where
  productId : String
  productName : String
  requested : Nat
  available : Int
deriving Repr, DecidableEq

/-- Result of `validateStock`. -/
structure StockValidationResult where
  isValid : Bool
  errors : List StockValidationError
deriving Repr, DecidableEq

/-- `StockService.validateStock`: read-only; per item, a missing-or-inactive
product reports `Producto no encontrado` with available 0, an active product
failing the `validateStock` method reports its name and current stock. -/
def validateStock (items : List StockItem) (db : DB) : StockValidationResult :=
  let errors := items.filterMap (fun item =>
    match findActive db item.productId with
    | none =>
        some ⟨item.productId, "Producto no encontrado", item.quantity, 0⟩
    | some product =>
        if validStockMethod product item.quantity then none
        else some ⟨item.productId, product.name, item.quantity, product.stock⟩)
  ⟨errors.isEmpty, errors⟩

/-- An error entry of `StockOperationResult.errors`; optional fields are absent
on some push sites of the source. -/
structure StockOpError where
  productId : String
  productName : Option String
  error : String
  requested : Option Nat
  available : Option Int
deriving Repr, DecidableEq

/-- An entry of `StockOperationResult.updatedProducts`. -/
structure UpdatedProduct where
  productId : String
  productName : String
  previousStock : Int
  newStock : Int
deriving Repr, DecidableEq

/-- Result of `decrementStock` / `incrementStock` (absent optional arrays are
embedded as `[]`). -/
structure StockOperationResult where
  success : Bool
  message : String
  errors : List StockOpError
  updatedProducts : List UpdatedProduct
deriving Repr, DecidableEq

/-- `Product.findByIdAndUpdate(pid, { $inc: { stock: delta } }, { new: true })`:
updates the document with this id and returns it together with the new
collection; `none` when no such document exists. (Mongoose update validators do
not run on `$inc`, so the schema `min: 0` is not enforced here.) -/
def updateStockById : DB → String → Int → Option (ProductRec × DB)
  | [], _, _ => none
  | p :: rest, pid, delta =>
    if p.id == pid then
      let p' : ProductRec := { p with stock := p.stock + delta }
      some (p', p' :: rest)
    else
      match updateStockById rest pid delta with
      | some (u, rest') => some (u, p :: rest')
      | none => none

/-- Accumulator of the per-item loops of `decrementStock` / `incrementStock`:
the session database plus the `updatedProducts` and `errors` arrays. -/
structure StockLoopAcc where
  db : DB
  updated : List UpdatedProduct
  errors : List StockOpError
deriving Repr, DecidableEq

/-- One iteration of the `decrementStock` loop. `pm` is the product map built
from the find at the start of the transaction (a snapshot: it is not refreshed
by the updates). A resulting negative stock throws, aborting the transaction. -/
def decStep (pm : String → Option ProductRec) (acc : StockLoopAcc)
    (item : StockItem) : Except String StockLoopAcc :=
  match pm item.productId with
  | none =>
      .ok { acc with errors := acc.errors ++
        [⟨item.productId, none, "Producto no encontrado", none, none⟩] }
  | some product =>
      if product.stock < (item.quantity : Int) then
        .ok { acc with errors := acc.errors ++
          [⟨item.productId, some product.name, "Stock insuficiente",
            some item.quantity, some product.stock⟩] }
      else
        let previousStock := product.stock
        match updateStockById acc.db item.productId (-(item.quantity : Int)) with
        | none =>
            .ok { acc with errors := acc.errors ++
              [⟨item.productId, some product.name, "Error actualizando producto",
                none, none⟩] }
        | some (updatedProduct, db') =>
            if updatedProduct.stock < 0 then
              .error ("Stock negativo resultante para " ++ product.name)
            else
              .ok { db := db'
                    updated := acc.updated ++
                      [⟨item.productId, product.name, previousStock,
                        updatedProduct.stock⟩]
                    errors := acc.errors }

/-- The failure result produced by the `catch` block of the stock operations:
any error thrown inside the transaction is returned as a single general entry
(`Error en la transacción de stock`). -/
def generalErrorResult (msg : String) : StockOperationResult :=
  ⟨false, "Error en la transacción de stock",
    [⟨"general", none, msg, none, none⟩], []⟩

/-- Body of the `decrementStock` transaction: validate, snapshot the active
products, run the per-item loop, and throw when any error was collected
(aborting the transaction). -/
def decrementTxn (items : List StockItem) (db : DB) :
    Except String (StockOperationResult × DB) :=
  let validation := validateStock items db
  if !validation.isValid then
    -- the source builds the structured per-item result here, then throws;
    -- the throw aborts the transaction and the outer catch discards it
    .error "Validación de stock fallida"
  else
    let pm := fun pid => findActive db pid
    match items.foldlM (decStep pm) ⟨db, [], []⟩ with
    | .error msg => .error msg
    | .ok acc =>
        if !acc.errors.isEmpty then
          .error "Error en decremento de stock"
        else
          .ok (⟨true, "Stock decrementado exitosamente", [], acc.updated⟩, acc.db)

/-- `StockService.decrementStock`: runs the transaction; a thrown error rolls
the database back and is converted by the catch block into the general
transaction-failure result. -/
def decrementStock (items : List StockItem) (db : DB) :
    StockOperationResult × DB :=
  match decrementTxn items db with
  | .ok (r, db') => (r, db')
  | .error msg => (generalErrorResult msg, db)

/-- One iteration of the `incrementStock` loop (no re-validation and no
negative-stock check; nothing throws inside this loop). -/
def incStep (pm : String → Option ProductRec) (acc : StockLoopAcc)
    (item : StockItem) : StockLoopAcc :=
  match pm item.productId with
  | none =>
      { acc with errors := acc.errors ++
        [⟨item.productId, none, "Producto no encontrado", none, none⟩] }
  | some product =>
      let previousStock := product.stock
      match updateStockById acc.db item.productId (item.quantity : Int) with
      | none =>
          { acc with errors := acc.errors ++
            [⟨item.productId, some product.name, "Error actualizando producto",
              none, none⟩] }
      | some (updatedProduct, db') =>
          { db := db'
            updated := acc.updated ++
              [⟨item.productId, product.name, previousStock,
                updatedProduct.stock⟩]
            errors := acc.errors }

/-- Body of the `incrementStock` transaction. -/
def incrementTxn (items : List StockItem) (db : DB) :
    Except String (StockOperationResult × DB) :=
  let pm := fun pid => findActive db pid
  let acc := items.foldl (incStep pm) ⟨db, [], []⟩
  if !acc.errors.isEmpty then
    .error "Error en incremento de stock"
  else
    .ok (⟨true, "Stock incrementado exitosamente", [], acc.updated⟩, acc.db)

/-- `StockService.incrementStock`: same transaction/rollback/catch shape as
`decrementStock`. -/
def incrementStock (items : List StockItem) (db : DB) :
    StockOperationResult × DB :=
  match incrementTxn items db with
  | .ok (r, db') => (r, db')
  | .error msg => (generalErrorResult msg, db)

/-! ## Quote totals — Quote.ts `calculateTotals`

JavaScript numbers are embedded as rationals; `Math.round` is `⌊x + 1/2⌋`
(round half toward plus infinity), which on the non-negative amounts of this
algorithm is standard half-up rounding. -/

/-- `Math.round(x * 100) / 100`; `Math.round y` is `Rat.floor (y + 1/2)`,
and `round2_intFloor` below identifies it with the mathematical ⌊·⌋. -/
def round2 (x : ℚ) : ℚ := (((x * 100 + 1/2).floor : Int) : ℚ) / 100

/-- `round2` is indeed half-up rounding at 2 decimals: the floor of
`x·100 + 1/2`, divided by 100. -/
theorem round2_intFloor (x : ℚ) :
    round2 x = ((⌊x * 100 + 1/2⌋ : Int) : ℚ) / 100 := by
  unfold round2
  rw [Rat.floor_def.trans (Rat.floor_def' _).symm]

/-- A quote line as `calculateTotals` reads it: the frozen snapshot price and
the quantity. -/
structure QuoteLine where
  price : ℚ
  quantity : Nat
deriving Repr, DecidableEq

/-- `QuoteSchema.methods.calculateTotals`: subtotal = Σ price·quantity (each
item subtotal is also re-assigned, unrounded), then discount, then tax, and
both subtotal and total are rounded to 2 decimals at the end. Returns
(subtotal, total). -/
def calculateTotals (items : List QuoteLine) (discount tax : ℚ) : ℚ × ℚ :=
  let subtotal := (items.map (fun it => it.price * (it.quantity : ℚ))).sum
  let discountAmount := subtotal * discount / 100
  let afterDiscount := subtotal - discountAmount
  let taxAmount := afterDiscount * tax / 100
  let total := afterDiscount + taxAmount
  (round2 subtotal, round2 total)

/-- The totals algorithm as the spec words it (for the refinement comparison
with `calculateTotals`): `subtotal = Σ(price × quantity)`;
`afterDiscount = subtotal × (1 − discount/100)`;
`total = afterDiscount × (1 + tax/100)`; both subtotal and total rounded
half-up to 2 decimals at the final step only. -/
def specTotals (items : List QuoteLine) (discount tax : ℚ) : ℚ × ℚ :=
  let subtotal := (items.map (fun it => it.price * (it.quantity : ℚ))).sum
  let afterDiscount := subtotal * (1 - discount / 100)
  let total := afterDiscount * (1 + tax / 100)
  (round2 subtotal, round2 total)

/-! ## Quote lifecycle — Quote.ts and quoteController.ts -/

/-- `QuoteSchema.status` enum. -/
inductive QuoteStatus where
  | pending | paid | cancelled | expired
deriving Repr, DecidableEq

/-- An entry of `quote.items` as the webhook handler reads it (`item.product`
reference and quantity). -/
structure QuoteItemRef where
  product : String
  quantity : Nat
deriving Repr, DecidableEq

/-- A document of the Quote collection (the fields the embedded operations
read or write). -/
structure QuoteRec where
  id : String
  status : QuoteStatus
  items : List QuoteItemRef
  expiresAt : Nat
  paymentId : Option String
deriving Repr, DecidableEq

/-- `Quote.findById`. -/
def findQuoteById (qs : List QuoteRec) (qid : String) : Option QuoteRec :=
  qs.find? (fun q => q.id == qid)

/-- Persisting a mutated quote document (`quote.save()`): replaces the
document with this id. -/
def saveQuote (qs : List QuoteRec) (q : QuoteRec) : List QuoteRec :=
  qs.map (fun x => if x.id == q.id then q else x)

/-- The update applied by `Quote.updateMany({status:'pending',
expiresAt:{$lte:now}}, {status:'expired'})` to one document. -/
def expireOne (now : Nat) (q : QuoteRec) : QuoteRec :=
  if q.status = .pending ∧ q.expiresAt ≤ now then { q with status := .expired }
  else q

/-- `expireOldQuotes` (quoteController.ts and the Quote static): the bulk
update over the collection. -/
def expireOldQuotes (now : Nat) (qs : List QuoteRec) : List QuoteRec :=
  qs.map (expireOne now)

/-- Outcome of `cancelQuote` as seen by the caller. -/
inductive CancelOutcome where
  | notFound
  | invalidState (current : QuoteStatus)
  | cancelledOk
deriving Repr, DecidableEq

/-- `cancelQuote` (quoteController.ts): only a `pending` quote is moved to
`cancelled`; any other current status is rejected with a 400 and nothing is
saved. (The seller-ownership filter is orthogonal to the status machine and is
not modelled.) -/
def cancelQuote (qid : String) (qs : List QuoteRec) :
    CancelOutcome × List QuoteRec :=
  match findQuoteById qs qid with
  | none => (.notFound, qs)
  | some quote =>
      if quote.status ≠ QuoteStatus.pending then
        (.invalidState quote.status, qs)
      else
        (.cancelledOk, saveQuote qs { quote with status := .cancelled })

/-! ## Payment records and the webhook reconciler — part_004 and
quoteController.ts `handlePaymentWebhook` -/

/-- `PaymentSchema.status` enum. -/
inductive PaymentStatus where
  | pending | approved | rejected | cancelled
deriving Repr, DecidableEq

/-- The processed webhook data handed to `handlePaymentWebhook` by
`processWebhook` (gateway payment id, the re-fetched authoritative status, and
the external reference when the gateway returned one). -/
structure WebhookInfo where
  paymentId : String
  status : String
  externalReference : Option String
deriving Repr, DecidableEq

/-- A document of the Payment collection (the fields the reconciler reads or
writes). -/
structure PaymentRec where
  id : String
  quote : String
  status : PaymentStatus
  paidAt : Option Nat
  externalReference : String
  webhookData : Option WebhookInfo
deriving Repr, DecidableEq

/-- `Payment.findOne({ externalReference })`. -/
def findPaymentByRef (ps : List PaymentRec) (ref : String) : Option PaymentRec :=
  ps.find? (fun p => p.externalReference == ref)

/-- `payment.save()` with the `PaymentSchema.pre('save')` paidAt hook: when the
status path was modified (mongoose marks it modified only if the assigned value
differs from the stored one), an `approved` status with no paidAt gets
`paidAt = now`, and a non-`approved` status clears paidAt. The mutated document
then replaces the stored one. (The unique-quote pre-save check is skipped here:
the quote path of an existing payment is never modified by the reconciler.) -/
def savePaymentDoc (now : Nat) (stored p : PaymentRec) (ps : List PaymentRec) :
    List PaymentRec :=
  let statusModified := p.status ≠ stored.status
  let p' :=
    if statusModified then
      if p.status = PaymentStatus.approved then
        if p.paidAt = none then { p with paidAt := some now } else p
      else { p with paidAt := none }
    else p
  ps.map (fun x => if x.id == p'.id then p' else x)

/-- The whole persisted state the reconciler touches. -/
structure SysState where
  payments : List PaymentRec
  quotes : List QuoteRec
  products : DB
deriving Repr, DecidableEq

/-- The logger calls of `handlePaymentWebhook`. -/
inductive LogEvent where
  | infoProcessingWebhook (paymentId status : String)
  | warnPaymentNotFound (paymentId : String)
  | errorStockDecrementFailed (paymentId quoteId : String)
      (errors : List StockOpError)
  | infoStockDecremented (paymentId quoteId : String)
  | infoUnknownStatus (status : String)
  | infoPaymentUpdated (paymentId : String)
deriving Repr, DecidableEq

/-- `handlePaymentWebhook` (quoteController.ts): correlate the payment by
external reference (missing correlation logs a warning and returns without
mutation); on `approved` set the payment approved with paidAt = now, set the
quote `paid` and save it, then decrement stock for all quote lines (a failed
decrement is only logged); on `rejected`/`cancelled` set the payment status; an
unrecognized status returns without saving. Finally the payment is saved with
the webhook payload attached. Returns the new state and the log. (In JS an
empty-string externalReference is falsy; `none` embeds the absent/falsy case.) -/
def handlePaymentWebhook (now : Nat) (wd : WebhookInfo) (s : SysState) :
    SysState × List LogEvent :=
  let log0 := [LogEvent.infoProcessingWebhook wd.paymentId wd.status]
  match wd.externalReference.bind (findPaymentByRef s.payments) with
  | none => (s, log0 ++ [.warnPaymentNotFound wd.paymentId])
  | some payment =>
      match wd.status with
      | "approved" =>
          let p1 := { payment with status := PaymentStatus.approved,
                                   paidAt := some now }
          match findQuoteById s.quotes payment.quote with
          | some quote =>
              let quotes1 := saveQuote s.quotes { quote with status := .paid }
              let stockItems := quote.items.map
                (fun it => StockItem.mk it.product it.quantity)
              let (stockResult, products1) := decrementStock stockItems s.products
              let log1 :=
                if stockResult.success then
                  [LogEvent.infoStockDecremented p1.id quote.id]
                else
                  [LogEvent.errorStockDecrementFailed p1.id quote.id
                    stockResult.errors]
              let p2 := { p1 with webhookData := some wd }
              (⟨savePaymentDoc now payment p2 s.payments, quotes1, products1⟩,
               log0 ++ log1 ++ [.infoPaymentUpdated p2.id])
          | none =>
              let p2 := { p1 with webhookData := some wd }
              ({ s with payments := savePaymentDoc now payment p2 s.payments },
               log0 ++ [.infoPaymentUpdated p2.id])
      | "rejected" =>
          -- the source looks the quote up but applies no change to it
          let p2 := { payment with status := PaymentStatus.rejected,
                                   webhookData := some wd }
          ({ s with payments := savePaymentDoc now payment p2 s.payments },
           log0 ++ [.infoPaymentUpdated p2.id])
      | "cancelled" =>
          let p2 := { payment with status := PaymentStatus.cancelled,
                                   webhookData := some wd }
          ({ s with payments := savePaymentDoc now payment p2 s.payments },
           log0 ++ [.infoPaymentUpdated p2.id])
      | _ => (s, log0 ++ [.infoUnknownStatus wd.status])

/-! ## Payment-per-quote uniqueness — part_004 (PaymentSchema) -/

/-- A Payment document as the uniqueness machinery sees it. -/
structure PaymentDoc where
  id : String
  quote : String
deriving Repr, DecidableEq

/-- `PaymentSchema.pre('save')` application-level check:
`findOne({ quote: this.quote, _id: { $ne: this._id } })` is non-empty. -/
def preSaveQuoteCheck (store : List PaymentDoc) (d : PaymentDoc) : Bool :=
  store.any (fun p => p.quote == d.quote && p.id != d.id)

/-- The storage layer: `quote: { unique: true }` creates a MongoDB unique
index, so an insert whose quote reference already exists is refused by the
store itself, independently of any application logic. -/
def insertWithUniqueIndex (store : List PaymentDoc) (d : PaymentDoc) :
    Option (List PaymentDoc) :=
  if store.any (fun p => p.quote == d.quote) then none
  else some (store ++ [d])

/-- Saving a new Payment: the pre-save check first (surfacing
`Ya existe un pago para este presupuesto`, the PaymentAlreadyExists error),
then the index-enforced insert (a duplicate slipping past the check surfaces as
a storage duplicate-key error). -/
def savePaymentForQuote (store : List PaymentDoc) (d : PaymentDoc) :
    Except String (List PaymentDoc) :=
  if preSaveQuoteCheck store d then
    .error "Ya existe un pago para este presupuesto"
  else
    match insertWithUniqueIndex store d with
    | some store' => .ok store'
    | none => .error "E11000 duplicate key"

/-! ## createQuoteValidation — part_001 -/

/-- The `customer` object of a quote-creation request body; `none` fields are
absent. -/
structure CustomerInput where
  name : Option String
  email : Option String
  phone : Option String
deriving Repr, DecidableEq

/-- An entry of `items`; the Bool flags state whether the caller supplied the
system-generated fields `product`, `productSnapshot`, `subtotal`. -/
structure ItemInput where
  productId : Option String
  quantity : Option Int
  productField : Bool
  productSnapshotField : Bool
  subtotalField : Bool
deriving Repr, DecidableEq

/-- A quote-creation request body: `none` = field absent; a `Bool` flag records
mere presence of a field whose value the validation chain never reads.
`customer = none` also embeds a present non-object value (both fail
`isObject`). Top-level `subtotalField` and `totalField` have no corresponding
chain in the source. -/
structure CreateQuoteInput where
  customer : Option CustomerInput
  items : Option (List ItemInput)
  discount : Option ℚ
  tax : Option ℚ
  notes : Option String
  expiresAtField : Bool
  quoteNumberField : Bool
  idField : Bool
  createdAtField : Bool
  updatedAtField : Bool
  subtotalField : Bool
  totalField : Bool
deriving Repr, DecidableEq

/-- JavaScript `String.prototype.trim` (used by the `.trim()` sanitizers):
strips leading and trailing whitespace. -/
def strTrim (s : String) : String :=
  ⟨((s.toList.dropWhile Char.isWhitespace).reverse.dropWhile
    Char.isWhitespace).reverse⟩

/-- validator.js `isMongoId`: 24 hexadecimal characters. -/
def isMongoId (s : String) : Bool :=
  s.length == 24 && s.toList.all (fun c => c.isDigit ||
    (("abcdefABCDEF".toList).contains c))

/-- validator.js `isEmail`, modelled as: exactly one `@`, non-empty local
part, domain containing a dot, and no whitespace. (The full validator.js
grammar is larger; the theorems below never depend on this predicate.) -/
def isEmailLike (s : String) : Bool :=
  let parts := s.splitOn "@"
  parts.length == 2 &&
  (parts.headD "").length > 0 &&
  ((parts.getLastD "").splitOn ".").length ≥ 2 &&
  s.toList.all (fun c => !c.isWhitespace)

/-- The phone pattern of the source: optional leading `+`, then at least one
character among digits, spaces, `-`, `(`, `)`. -/
def isPhoneLike (s : String) : Bool :=
  let rest := if s.startsWith "+" then s.drop 1 else s
  rest.length > 0 &&
  rest.toList.all (fun c => c.isDigit || c = ' ' || c = '-' || c = '(' || c = ')')

/-- `body('items.*.…')` chains applied to one item. -/
def itemInputErrors (it : ItemInput) : List String :=
  (match it.productId with
   | none => ["ID de producto inválido"]
   | some pid => if isMongoId pid then [] else ["ID de producto inválido"]) ++
  (match it.quantity with
   | none => ["La cantidad debe ser un número entero mayor a 0"]
   | some q =>
       if 1 ≤ q then [] else ["La cantidad debe ser un número entero mayor a 0"]) ++
  (if it.productField then
     ["items.product se calcula automáticamente, usar solo productId"] else []) ++
  (if it.productSnapshotField then
     ["items.productSnapshot se genera automáticamente"] else []) ++
  (if it.subtotalField then ["items.subtotal se calcula automáticamente"] else [])

/-- `createQuoteValidation` (part_001): the accumulated `withMessage` texts of
the failing validators, in chain order. The final chain rejects the presence of
`expiresAt`, `quoteNumber`, `_id`, `createdAt`, `updatedAt`; nothing in the
source inspects a top-level `subtotal` or `total`. -/
def createQuoteValidationErrors (inp : CreateQuoteInput) : List String :=
  let autoMsg := "Este campo se genera automáticamente, no debe enviarse"
  (match inp.customer with
   | none => ["Los datos del cliente son requeridos"]
   | some _ => []) ++
  (match inp.customer with
   | none =>
       ["El nombre del cliente es requerido",
        "El nombre debe tener entre 2 y 200 caracteres"]
   | some c =>
       (match c.name with
        | none =>
            ["El nombre del cliente es requerido",
             "El nombre debe tener entre 2 y 200 caracteres"]
        | some n =>
            (if n.isEmpty then ["El nombre del cliente es requerido"] else []) ++
            (let t := strTrim n
             if 2 ≤ t.length ∧ t.length ≤ 200 then []
             else ["El nombre debe tener entre 2 y 200 caracteres"])) ++
       (match c.email with
        | none => []
        | some e => if isEmailLike e then [] else ["El email del cliente no es válido"]) ++
       (match c.phone with
        | none => []
        | some ph =>
            if isPhoneLike ph then [] else ["El formato del teléfono no es válido"])) ++
  (match inp.items with
   | none => ["Debe incluir al menos un item"]
   | some its =>
       (if its.isEmpty then ["Debe incluir al menos un item"] else []) ++
       its.flatMap itemInputErrors) ++
  (match inp.discount with
   | none => []
   | some d =>
       if 0 ≤ d ∧ d ≤ 100 then [] else ["El descuento debe ser entre 0 y 100"]) ++
  (match inp.tax with
   | none => []
   | some t =>
       if 0 ≤ t ∧ t ≤ 100 then [] else ["El impuesto debe ser entre 0 y 100"]) ++
  (match inp.notes with
   | none => []
   | some nt =>
       if (strTrim nt).length ≤ 1000 then []
       else ["Las notas no pueden exceder 1000 caracteres"]) ++
  (if inp.expiresAtField then [autoMsg] else []) ++
  (if inp.quoteNumberField then [autoMsg] else []) ++
  (if inp.idField then [autoMsg] else []) ++
  (if inp.createdAtField then [autoMsg] else []) ++
  (if inp.updatedAtField then [autoMsg] else [])

/-! ## Sequences of ledger calls (for the accounting invariant) -/

/-- Total quantity requested for one product across a batch (duplicate entries
for the same product are summed, matching the per-entry `$inc` updates). -/
def itemsTotal (items : List StockItem) (pid : String) : Int :=
  ((items.filter (fun it => it.productId == pid)).map
    (fun it => (it.quantity : Int))).sum

/-- One call of the ledger mutation API. -/
inductive StockOp where
  | dec (items : List StockItem)
  | inc (items : List StockItem)
deriving Repr, DecidableEq

/-- Running one ledger call against the database. -/
def applyOp (db : DB) : StockOp → StockOperationResult × DB
  | .dec items => decrementStock items db
  | .inc items => incrementStock items db

/-- The database after a sequence of ledger calls. -/
def runOps (db : DB) (ops : List StockOp) : DB :=
  ops.foldl (fun d op => (applyOp d op).2) db

/-- Net quantity successfully decremented (minus successfully incremented) for
one product by one call: a failed call contributes 0. -/
def opNetDec (db : DB) (op : StockOp) (pid : String) : Int :=
  match op with
  | .dec items =>
      if (decrementStock items db).1.success then itemsTotal items pid else 0
  | .inc items =>
      if (incrementStock items db).1.success then -(itemsTotal items pid) else 0

/-- Sum of `opNetDec` along a sequence of calls. -/
def netDecremented (db : DB) (ops : List StockOp) (pid : String) : Int :=
  match ops with
  | [] => 0
  | op :: rest => opNetDec db op pid + netDecremented (applyOp db op).2 rest pid

/-! ## Helper lemmas: stock ledger -/

theorem itemsTotal_cons (it : StockItem) (items : List StockItem) (pid : String) :
    itemsTotal (it :: items) pid =
      (if it.productId == pid then (it.quantity : Int) else 0) +
        itemsTotal items pid := by
  by_cases h : (it.productId == pid) = true <;>
    simp [itemsTotal, List.filter_cons, h]

theorem stockOf_cons (p : ProductRec) (rest : DB) (pid : String) :
    stockOf (p :: rest) pid =
      if p.id == pid then p.stock else stockOf rest pid := by
  cases h : (p.id == pid) with
  | true => simp [stockOf, List.find?_cons, h]
  | false => simp [stockOf, List.find?_cons, h]

theorem updateStockById_spec (pid : String) (delta : Int) :
    ∀ (db : DB) (u : ProductRec) (db' : DB),
      updateStockById db pid delta = some (u, db') →
      (∃ p ∈ db, (p.id == pid) = true ∧
        u = { p with stock := p.stock + delta }) ∧
      u.id = pid ∧
      u.stock = stockOf db pid + delta ∧
      stockOf db' pid = stockOf db pid + delta ∧
      (∀ q, q ≠ pid → stockOf db' q = stockOf db q) ∧
      db'.map ProductRec.id = db.map ProductRec.id ∧
      (∀ x ∈ db', x = u ∨ x ∈ db) := by
  intro db
  induction db with
  | nil => intro u db' h; simp [updateStockById] at h
  | cons p rest ih =>
    intro u db' h
    by_cases hp : (p.id == pid) = true
    · rw [updateStockById, if_pos hp] at h
      rw [Option.some_inj, Prod.mk.injEq] at h
      obtain ⟨hu, hdb'⟩ := h
      subst hu
      subst hdb'
      have hpid : p.id = pid := by simpa using hp
      refine ⟨⟨p, List.mem_cons_self p rest, hp, rfl⟩, hpid, ?_, ?_, ?_, ?_, ?_⟩
      · rw [stockOf_cons, if_pos hp]
      · rw [stockOf_cons, stockOf_cons, if_pos hp]
        simp [hp]
      · intro q hq
        have hq' : (p.id == q) = false := by
          simp [hpid]; exact fun hc => hq hc.symm
        rw [stockOf_cons, stockOf_cons]
        simp [hq']
      · simp
      · intro x hx
        rcases List.mem_cons.mp hx with hx | hx
        · exact Or.inl hx
        · exact Or.inr (List.mem_cons_of_mem _ hx)
    · rw [updateStockById, if_neg hp] at h
      cases hrec : updateStockById rest pid delta with
      | none => rw [hrec] at h; exact absurd h (by simp)
      | some pr =>
        obtain ⟨u0, rest'⟩ := pr
        rw [hrec] at h
        rw [Option.some_inj, Prod.mk.injEq] at h
        obtain ⟨hu, hdb'⟩ := h
        subst hu
        subst hdb'
        obtain ⟨hex, hid, hustock, hstock', hother, hmap, hmem⟩ :=
          ih _ rest' hrec
        have hpfalse : (p.id == pid) = false := by
          simpa using hp
        refine ⟨?_, hid, ?_, ?_, ?_, ?_, ?_⟩
        · obtain ⟨x, hx, hxid, hxu⟩ := hex
          exact ⟨x, List.mem_cons_of_mem _ hx, hxid, hxu⟩
        · rw [stockOf_cons]; simp [hpfalse]; exact hustock
        · rw [stockOf_cons, stockOf_cons]
          simp [hpfalse]
          exact hstock'
        · intro q hq
          rw [stockOf_cons, stockOf_cons]
          by_cases hpq : (p.id == q) = true
          · simp [hpq]
          · simp only [Bool.not_eq_true] at hpq
            simp [hpq]
            exact hother q hq
        · simp [hmap]
        · intro x hx
          rcases List.mem_cons.mp hx with hx | hx
          · exact Or.inr (hx ▸ List.mem_cons_self p rest)
          · rcases hmem x hx with h1 | h1
            · exact Or.inl h1
            · exact Or.inr (List.mem_cons_of_mem _ h1)

theorem decStep_ok_cases (pm : String → Option ProductRec) (acc : StockLoopAcc)
    (it : StockItem) (acc1 : StockLoopAcc) (h : decStep pm acc it = .ok acc1) :
    (acc1.db = acc.db ∧ ∃ e, acc1.errors = acc.errors ++ [e]) ∨
    (∃ u db1, updateStockById acc.db it.productId (-(it.quantity : Int)) =
        some (u, db1) ∧
      0 ≤ u.stock ∧ acc1.db = db1 ∧ acc1.errors = acc.errors ∧
      acc1.updated = acc.updated ++
        [⟨it.productId, (pm it.productId).elim "" ProductRec.name,
          (pm it.productId).elim 0 ProductRec.stock, u.stock⟩]) := by
  unfold decStep at h
  cases hpm : pm it.productId with
  | none =>
      simp only [hpm] at h
      injection h with h
      subst h
      exact Or.inl ⟨rfl, _, rfl⟩
  | some product =>
      simp only [hpm] at h
      by_cases hlt : product.stock < (it.quantity : Int)
      · rw [if_pos hlt] at h
        injection h with h
        subst h
        exact Or.inl ⟨rfl, _, rfl⟩
      · rw [if_neg hlt] at h
        cases hupd : updateStockById acc.db it.productId (-(it.quantity : Int)) with
        | none =>
            simp only [hupd] at h
            injection h with h
            subst h
            exact Or.inl ⟨rfl, _, rfl⟩
        | some pr =>
            obtain ⟨u, db1⟩ := pr
            simp only [hupd] at h
            by_cases hneg : u.stock < 0
            · rw [if_pos hneg] at h
              exact absurd h (by simp)
            · rw [if_neg hneg] at h
              injection h with h
              subst h
              exact Or.inr ⟨u, db1, rfl, by omega, rfl, rfl, by simp [hpm]⟩

theorem decLoop_spec (pm : String → Option ProductRec) :
    ∀ (items : List StockItem) (acc acc' : StockLoopAcc),
      items.foldlM (decStep pm) acc = .ok acc' →
      (∃ suffix, acc'.errors = acc.errors ++ suffix) ∧
      (∀ x ∈ acc'.db, x ∈ acc.db ∨ 0 ≤ x.stock) ∧
      acc'.db.map ProductRec.id = acc.db.map ProductRec.id ∧
      (acc'.errors = acc.errors →
        ∀ pid, stockOf acc'.db pid = stockOf acc.db pid - itemsTotal items pid) := by
  intro items
  induction items with
  | nil =>
      intro acc acc' h
      simp only [List.foldlM_nil, pure] at h
      injection h with h
      subst h
      exact ⟨⟨[], by simp⟩, fun x hx => Or.inl hx, rfl,
        fun _ pid => by simp [itemsTotal]⟩
  | cons it rest ih =>
      intro acc acc' h
      rw [List.foldlM_cons] at h
      cases hstep : decStep pm acc it with
      | error msg =>
          rw [hstep] at h
          exact absurd h (by simp [Bind.bind, Except.bind])
      | ok acc1 =>
          rw [hstep] at h
          simp only [Bind.bind, Except.bind] at h
          obtain ⟨⟨suffix, hsuf⟩, hmem, hmap, hacct⟩ := ih acc1 acc' h
          rcases decStep_ok_cases pm acc it acc1 hstep with
            ⟨hdb, e, herr⟩ | ⟨u, db1, hupd, hpos, hdb, herr, _⟩
          · refine ⟨⟨e :: suffix, by rw [hsuf, herr]; simp⟩, ?_, ?_, ?_⟩
            · intro x hx
              rcases hmem x hx with h1 | h1
              · exact Or.inl (hdb ▸ h1)
              · exact Or.inr h1
            · rw [hmap, hdb]
            · intro heq
              exfalso
              have h1 : acc'.errors.length = acc.errors.length := by rw [heq]
              rw [hsuf, herr] at h1
              simp at h1
          · obtain ⟨hex, huid, hustock, hstock', hother, humap, humem⟩ :=
              updateStockById_spec it.productId (-(it.quantity : Int))
                acc.db u db1 hupd
            refine ⟨⟨suffix, by rw [hsuf, herr]⟩, ?_, ?_, ?_⟩
            · intro x hx
              rcases hmem x hx with h1 | h1
              · rcases humem x (hdb ▸ h1) with h2 | h2
                · exact Or.inr (h2 ▸ hpos)
                · exact Or.inl h2
              · exact Or.inr h1
            · rw [hmap, hdb, humap]
            · intro heq pid
              have hs : suffix = [] := by
                have h1 : acc1.errors ++ suffix = acc1.errors := by
                  rw [← hsuf, heq, herr]
                have h2 := congrArg List.length h1
                simp at h2
                exact h2
              have heq1 : acc'.errors = acc1.errors := by
                rw [hsuf, hs, List.append_nil]
              have hrest := hacct heq1 pid
              rw [hrest, hdb, itemsTotal_cons]
              by_cases hpid : (it.productId == pid) = true
              · have hpe : it.productId = pid := by simpa using hpid
                rw [← hpe]
                rw [hstock']
                simp [hpid]
                omega
              · have hne : pid ≠ it.productId := by
                  intro hc
                  exact hpid (by simp [hc])
                rw [hother pid hne]
                simp [hpid]

theorem decrementStock_spec (items : List StockItem) (db : DB) :
    ((decrementStock items db).1.success = false ∧
      (decrementStock items db).2 = db) ∨
    ((decrementStock items db).1.success = true ∧
      (∀ pid, stockOf (decrementStock items db).2 pid =
        stockOf db pid - itemsTotal items pid) ∧
      (decrementStock items db).2.map ProductRec.id = db.map ProductRec.id ∧
      (∀ x ∈ (decrementStock items db).2, x ∈ db ∨ 0 ≤ x.stock)) := by
  unfold decrementStock
  cases htxn : decrementTxn items db with
  | error msg => exact Or.inl ⟨rfl, rfl⟩
  | ok r =>
      obtain ⟨res, db'⟩ := r
      unfold decrementTxn at htxn
      by_cases hval : (!(validateStock items db).isValid) = true
      · rw [if_pos hval] at htxn
        exact absurd htxn (by simp)
      · rw [if_neg hval] at htxn
        cases hloop : List.foldlM (decStep (fun pid => findActive db pid))
            ⟨db, [], []⟩ items with
        | error msg =>
            simp only [hloop] at htxn
            exact absurd htxn (by simp)
        | ok acc =>
            simp only [hloop] at htxn
            by_cases herrs : (!acc.errors.isEmpty) = true
            · rw [if_pos herrs] at htxn
              exact absurd htxn (by simp)
            · rw [if_neg herrs] at htxn
              rw [Except.ok.injEq, Prod.mk.injEq] at htxn
              obtain ⟨hres, hdb'⟩ := htxn
              subst hres
              subst hdb'
              have hnil : acc.errors = [] := by
                simp at herrs
                exact herrs
              obtain ⟨_, hmem, hmap, hacct⟩ :=
                decLoop_spec (fun pid => findActive db pid) items ⟨db, [], []⟩
                  acc hloop
              exact Or.inr ⟨rfl, hacct hnil, hmap, hmem⟩

theorem incStep_cases (pm : String → Option ProductRec) (acc : StockLoopAcc)
    (it : StockItem) :
    ((incStep pm acc it).db = acc.db ∧
      ∃ e, (incStep pm acc it).errors = acc.errors ++ [e]) ∨
    (∃ u db1, updateStockById acc.db it.productId (it.quantity : Int) =
        some (u, db1) ∧
      (incStep pm acc it).db = db1 ∧
      (incStep pm acc it).errors = acc.errors) := by
  unfold incStep
  cases hpm : pm it.productId with
  | none => exact Or.inl ⟨rfl, _, rfl⟩
  | some product =>
      cases hupd : updateStockById acc.db it.productId (it.quantity : Int) with
      | none => exact Or.inl ⟨rfl, _, rfl⟩
      | some pr =>
          obtain ⟨u, db1⟩ := pr
          exact Or.inr ⟨u, db1, rfl, rfl, rfl⟩

theorem incLoop_spec (pm : String → Option ProductRec) :
    ∀ (items : List StockItem) (acc : StockLoopAcc),
      (∃ suffix, (items.foldl (incStep pm) acc).errors = acc.errors ++ suffix) ∧
      ((∀ x ∈ acc.db, 0 ≤ x.stock) →
        ∀ x ∈ (items.foldl (incStep pm) acc).db, 0 ≤ x.stock) ∧
      (items.foldl (incStep pm) acc).db.map ProductRec.id =
        acc.db.map ProductRec.id ∧
      ((items.foldl (incStep pm) acc).errors = acc.errors →
        ∀ pid, stockOf (items.foldl (incStep pm) acc).db pid =
          stockOf acc.db pid + itemsTotal items pid) := by
  intro items
  induction items with
  | nil =>
      intro acc
      exact ⟨⟨[], by simp⟩, fun h => h, rfl, fun _ pid => by simp [itemsTotal]⟩
  | cons it rest ih =>
      intro acc
      rw [List.foldl_cons]
      obtain ⟨⟨suffix, hsuf⟩, hmem, hmap, hacct⟩ := ih (incStep pm acc it)
      rcases incStep_cases pm acc it with
        ⟨hdb, e, herr⟩ | ⟨u, db1, hupd, hdb, herr⟩
      · refine ⟨⟨e :: suffix, by rw [hsuf, herr]; simp⟩, ?_, ?_, ?_⟩
        · intro hnn x hx
          exact hmem (fun y hy => hnn y (hdb ▸ hy)) x hx
        · rw [hmap, hdb]
        · intro heq
          exfalso
          have h1 : (rest.foldl (incStep pm) (incStep pm acc it)).errors.length =
              acc.errors.length := by rw [heq]
          rw [hsuf, herr] at h1
          simp at h1
      · obtain ⟨hex, huid, hustock, hstock', hother, humap, humem⟩ :=
          updateStockById_spec it.productId (it.quantity : Int) acc.db u db1 hupd
        refine ⟨⟨suffix, by rw [hsuf, herr]⟩, ?_, ?_, ?_⟩
        · intro hnn x hx
          refine hmem ?_ x hx
          intro y hy
          rcases humem y (hdb ▸ hy) with h2 | h2
          · obtain ⟨p, hpmem, _, hpu⟩ := hex
            have : (0 : Int) ≤ p.stock := hnn p hpmem
            rw [h2, hpu]
            simp
            omega
          · exact hnn y h2
        · rw [hmap, hdb, humap]
        · intro heq pid
          have hs : suffix = [] := by
            have h1 : (incStep pm acc it).errors ++ suffix =
                (incStep pm acc it).errors := by
              rw [← hsuf, heq, herr]
            have h2 := congrArg List.length h1
            simp at h2
            exact h2
          have heq1 : (rest.foldl (incStep pm) (incStep pm acc it)).errors =
              (incStep pm acc it).errors := by
            rw [hsuf, hs, List.append_nil]
          have hrest := hacct heq1 pid
          rw [hrest, hdb, itemsTotal_cons]
          by_cases hpid : (it.productId == pid) = true
          · have hpe : it.productId = pid := by simpa using hpid
            rw [← hpe]
            rw [hstock']
            simp [hpid]
            omega
          · have hne : pid ≠ it.productId := by
              intro hc
              exact hpid (by simp [hc])
            rw [hother pid hne]
            simp [hpid]

theorem incrementStock_spec (items : List StockItem) (db : DB) :
    ((incrementStock items db).1.success = false ∧
      (incrementStock items db).2 = db) ∨
    ((incrementStock items db).1.success = true ∧
      (∀ pid, stockOf (incrementStock items db).2 pid =
        stockOf db pid + itemsTotal items pid) ∧
      (incrementStock items db).2.map ProductRec.id = db.map ProductRec.id ∧
      ((∀ x ∈ db, 0 ≤ x.stock) →
        ∀ x ∈ (incrementStock items db).2, 0 ≤ x.stock)) := by
  unfold incrementStock
  cases htxn : incrementTxn items db with
  | error msg => exact Or.inl ⟨rfl, rfl⟩
  | ok r =>
      obtain ⟨res, db'⟩ := r
      unfold incrementTxn at htxn
      by_cases herrs : (!(items.foldl (incStep (fun pid => findActive db pid))
          ⟨db, [], []⟩).errors.isEmpty) = true
      · rw [if_pos herrs] at htxn
        exact absurd htxn (by simp)
      · rw [if_neg herrs] at htxn
        rw [Except.ok.injEq, Prod.mk.injEq] at htxn
        obtain ⟨hres, hdb'⟩ := htxn
        subst hres
        subst hdb'
        have hnil : (items.foldl (incStep (fun pid => findActive db pid))
            ⟨db, [], []⟩).errors = [] := by
          simp at herrs
          exact herrs
        obtain ⟨_, hnn, hmap, hacct⟩ :=
          incLoop_spec (fun pid => findActive db pid) items ⟨db, [], []⟩
        exact Or.inr ⟨rfl, hacct hnil, hmap, fun h => hnn h⟩

theorem decrementStock_invalid (items : List StockItem) (db : DB)
    (h : (validateStock items db).isValid = false) :
    decrementStock items db =
      (generalErrorResult "Validación de stock fallida", db) := by
  simp [decrementStock, decrementTxn, h]

theorem incLoop_error_of_missing (pm : String → Option ProductRec) :
    ∀ (items : List StockItem) (acc : StockLoopAcc) (it : StockItem),
      it ∈ items → pm it.productId = none →
      (items.foldl (incStep pm) acc).errors ≠ [] := by
  intro items
  induction items with
  | nil => intro acc it hmem; exact absurd hmem (by simp)
  | cons a rest ih =>
      intro acc it hmem hpm
      rw [List.foldl_cons]
      rcases List.mem_cons.mp hmem with heq | htail
      · subst heq
        obtain ⟨⟨suffix, hsuf⟩, _, _, _⟩ := incLoop_spec pm rest (incStep pm acc it)
        rw [hsuf]
        have : (incStep pm acc it).errors = acc.errors ++
            [⟨it.productId, none, "Producto no encontrado", none, none⟩] := by
          simp [incStep, hpm]
        rw [this]
        simp
      · exact ih (incStep pm acc a) it htail hpm

theorem incrementStock_missing (items : List StockItem) (db : DB)
    (it : StockItem) (hit : it ∈ items)
    (hpm : findActive db it.productId = none) :
    incrementStock items db =
      (generalErrorResult "Error en incremento de stock", db) := by
  have h := incLoop_error_of_missing (fun pid => findActive db pid) items
    ⟨db, [], []⟩ it hit hpm
  have h2 : (!(items.foldl (incStep (fun pid => findActive db pid))
      ⟨db, [], []⟩).errors.isEmpty) = true := by
    simp [List.isEmpty_iff]
    exact h
  simp only [incrementStock, incrementTxn, h2, if_pos]

theorem findActive_eq_none_of_inactive (db : DB) (p : ProductRec)
    (hnd : (db.map ProductRec.id).Nodup) (hp : p ∈ db)
    (hin : p.isActive = false) :
    findActive db p.id = none := by
  unfold findActive
  rw [List.find?_eq_none]
  intro x hx
  by_cases hxp : x.id = p.id
  · have hxpeq : x = p := List.inj_on_of_nodup_map hnd hx hp hxp
    subst hxpeq
    simp [hin]
  · simp [hxp]

theorem applyOp_wf (db : DB) (op : StockOp) (h : wfDB db) :
    wfDB (applyOp db op).2 := by
  obtain ⟨hnd, hnn⟩ := h
  cases op with
  | dec items =>
      rcases decrementStock_spec items db with ⟨_, hdb⟩ | ⟨_, _, hmap, hmem⟩
      · show wfDB (decrementStock items db).2
        rw [hdb]
        exact ⟨hnd, hnn⟩
      · refine ⟨?_, ?_⟩
        · show ((decrementStock items db).2.map ProductRec.id).Nodup
          rw [hmap]
          exact hnd
        · intro p hp
          rcases hmem p hp with h1 | h1
          · exact hnn p h1
          · exact h1
  | inc items =>
      rcases incrementStock_spec items db with ⟨_, hdb⟩ | ⟨_, _, hmap, hmem⟩
      · show wfDB (incrementStock items db).2
        rw [hdb]
        exact ⟨hnd, hnn⟩
      · refine ⟨?_, ?_⟩
        · show ((incrementStock items db).2.map ProductRec.id).Nodup
          rw [hmap]
          exact hnd
        · exact hmem hnn

theorem applyOp_net (db : DB) (op : StockOp) (pid : String) :
    opNetDec db op pid = stockOf db pid - stockOf (applyOp db op).2 pid := by
  cases op with
  | dec items =>
      rcases decrementStock_spec items db with ⟨hsf, hdb⟩ | ⟨hst, hacct, _, _⟩
      · show (if (decrementStock items db).1.success then _ else 0) = _
        rw [hsf]
        show (0 : Int) = stockOf db pid - stockOf (decrementStock items db).2 pid
        rw [hdb]
        ring
      · show (if (decrementStock items db).1.success then _ else 0) = _
        rw [hst]
        show itemsTotal items pid =
          stockOf db pid - stockOf (decrementStock items db).2 pid
        rw [hacct pid]
        ring
  | inc items =>
      rcases incrementStock_spec items db with ⟨hsf, hdb⟩ | ⟨hst, hacct, _, _⟩
      · show (if (incrementStock items db).1.success then _ else 0) = _
        rw [hsf]
        show (0 : Int) = stockOf db pid - stockOf (incrementStock items db).2 pid
        rw [hdb]
        ring
      · show (if (incrementStock items db).1.success then _ else 0) = _
        rw [hst]
        show -itemsTotal items pid =
          stockOf db pid - stockOf (incrementStock items db).2 pid
        rw [hacct pid]
        ring

/-! ## Helper lemmas: webhook reconciler -/

theorem handleWebhook_approved_spec (now : Nat) (wd : WebhookInfo) (s : SysState)
    (ref : String) (payment : PaymentRec) (quote : QuoteRec)
    (href : wd.externalReference = some ref)
    (hst : wd.status = "approved")
    (hp : findPaymentByRef s.payments ref = some payment)
    (hq : findQuoteById s.quotes payment.quote = some quote) :
    handlePaymentWebhook now wd s =
      (⟨savePaymentDoc now payment
          { payment with
            status := PaymentStatus.approved, paidAt := some now,
            webhookData := some wd } s.payments,
        saveQuote s.quotes { quote with status := QuoteStatus.paid },
        (decrementStock (quote.items.map fun it => ⟨it.product, it.quantity⟩)
          s.products).2⟩,
       [LogEvent.infoProcessingWebhook wd.paymentId wd.status] ++
       (if (decrementStock (quote.items.map fun it => ⟨it.product, it.quantity⟩)
             s.products).1.success = true then
          [LogEvent.infoStockDecremented payment.id quote.id]
        else
          [LogEvent.errorStockDecrementFailed payment.id quote.id
            (decrementStock (quote.items.map fun it => ⟨it.product, it.quantity⟩)
              s.products).1.errors]) ++
       [LogEvent.infoPaymentUpdated payment.id]) := by
  unfold handlePaymentWebhook
  rw [href]
  simp only [Option.some_bind, hp, hst, hq]

theorem savePaymentDoc_approved_mem (now : Nat) (stored p : PaymentRec)
    (ps : List PaymentRec) (hstat : p.status = PaymentStatus.approved)
    (hpaid : p.paidAt = some now) (hmem : stored ∈ ps) (hid : p.id = stored.id) :
    p ∈ savePaymentDoc now stored p ps := by
  unfold savePaymentDoc
  dsimp only
  have hp' : (if p.status ≠ stored.status then
      if p.status = PaymentStatus.approved then
        if p.paidAt = none then { p with paidAt := some now } else p
      else { p with paidAt := none }
    else p) = p := by
    by_cases h : p.status ≠ stored.status <;> simp [h, hstat, hpaid]
  rw [hp']
  exact List.mem_map.mpr ⟨stored, hmem, by simp [hid]⟩

theorem saveQuote_mem (qs : List QuoteRec) (q quote : QuoteRec)
    (hmem : quote ∈ qs) (hid : q.id = quote.id) : q ∈ saveQuote qs q :=
  List.mem_map.mpr ⟨quote, hmem, by simp [hid]⟩

/-! ## Claim theorems -/

/-- Example instance for C1: one product with stock 10, a pending quote for
2 units, a pending payment correlated by external reference `ER1`. -/
def dbC1 : DB := [⟨"prodA", "Producto A", 10, true⟩]

def payC1 : PaymentRec := ⟨"PAY1", "Q1", .pending, none, "ER1", none⟩

def quoteC1 : QuoteRec := ⟨"Q1", .pending, [⟨"prodA", 2⟩], 999, some "PAY1"⟩

def stateC1 : SysState := ⟨[payC1], [quoteC1], dbC1⟩

def wdC1 : WebhookInfo := ⟨"MP123", "approved", some "ER1"⟩

/-- C1 (code bug): replaying the same approved-payment notification is NOT a
no-op. After the first delivery the payment is terminal (`approved`) and the
replayed gateway status equals the current one, yet `handlePaymentWebhook`
re-applies the whole approved transition: the first delivery leaves stock 8,
the replay decrements again to 6 — stock is decremented once per delivery, not
exactly once. -/
theorem c1_replay_decrements_stock_twice :
    stockOf ((handlePaymentWebhook 100 wdC1 stateC1).1).products "prodA" = 8 ∧
    (findPaymentByRef ((handlePaymentWebhook 100 wdC1 stateC1).1).payments
      "ER1").map PaymentRec.status = some PaymentStatus.approved ∧
    stockOf ((handlePaymentWebhook 200 wdC1
      ((handlePaymentWebhook 100 wdC1 stateC1).1)).1).products "prodA" = 6 := by
  decide

/-- Example instance for C2: `productX` with stock 3. -/
def dbC2 : DB := [⟨"productX", "Producto X", 3, true⟩]

/-- C2 (code bug): Decrement(productX, 5) against stock 3 aborts with no
partial effect and stock remains 3 (the all-or-nothing part holds), but the
returned error is the single generic transaction entry
`{productId: "general", error: "Validación de stock fallida"}` with no
requested/available fields: the structured per-item errors that `validateStock`
computes (requested 5, available 3) are built inside the transaction and then
discarded by the catch block, so the operation does NOT return the same
structured per-item errors as Validate. -/
theorem c2_decrement_aborts_but_discards_item_errors :
    decrementStock [⟨"productX", 5⟩] dbC2 =
      (⟨false, "Error en la transacción de stock",
        [⟨"general", none, "Validación de stock fallida", none, none⟩], []⟩,
       dbC2) ∧
    (validateStock [⟨"productX", 5⟩] dbC2).errors =
      [⟨"productX", "Producto X", 5, 3⟩] := by
  decide

/-- C3: over any sequence of Decrement/Increment calls from a well-formed
database, every intermediate database keeps all stocks non-negative, and for
every product the net successfully-decremented quantity equals
available-at-start minus available-at-end. -/
theorem c3_stock_sequences_invariant (db0 : DB) (ops : List StockOp)
    (h : wfDB db0) :
    (∀ pre suf, ops = pre ++ suf → ∀ p ∈ runOps db0 pre, 0 ≤ p.stock) ∧
    (∀ pid, netDecremented db0 ops pid =
      stockOf db0 pid - stockOf (runOps db0 ops) pid) := by
  induction ops generalizing db0 with
  | nil =>
      refine ⟨?_, ?_⟩
      · intro pre suf hps p hp
        have hpre : pre = [] := by
          cases pre with
          | nil => rfl
          | cons a l => simp at hps
        subst hpre
        exact h.2 p hp
      · intro pid
        show (0 : Int) = stockOf db0 pid - stockOf db0 pid
        ring
  | cons op rest ih =>
      have hwf1 := applyOp_wf db0 op h
      obtain ⟨ihpre, ihnet⟩ := ih (applyOp db0 op).2 hwf1
      refine ⟨?_, ?_⟩
      · intro pre suf hps p hp
        cases pre with
        | nil => exact h.2 p hp
        | cons op' pre' =>
            simp only [List.cons_append, List.cons.injEq] at hps
            obtain ⟨hop, hrest⟩ := hps
            subst hop
            exact ihpre pre' suf hrest p hp
      · intro pid
        show opNetDec db0 op pid +
          netDecremented (applyOp db0 op).2 rest pid = _
        rw [applyOp_net db0 op pid, ihnet pid]
        have hr : runOps db0 (op :: rest) = runOps (applyOp db0 op).2 rest := rfl
        rw [hr]
        ring

/-- Example database and call sequence witnessing C3. -/
def dbC3 : DB := [⟨"p1", "Uno", 5, true⟩, ⟨"p2", "Dos", 0, true⟩]

def opsC3 : List StockOp :=
  [.dec [⟨"p1", 2⟩], .inc [⟨"p1", 1⟩], .dec [⟨"p2", 1⟩], .dec [⟨"p1", 4⟩]]

/-- Witness for C3 at a concrete database and call sequence. -/
theorem c3_witness :
    wfDB dbC3 ∧
    (∀ pid, netDecremented dbC3 opsC3 pid =
      stockOf dbC3 pid - stockOf (runOps dbC3 opsC3) pid) :=
  ⟨by decide, (c3_stock_sequences_invariant dbC3 opsC3 (by decide)).2⟩

/-- C4: when the gateway reports approved and the ledger decrement fails, the
payment is still persisted as approved with paidAt set, the quote as paid,
the stock is left unchanged, and the failure is surfaced on the error log
(the stock-inconsistency escalation), not silently swallowed. -/
theorem c4_approved_payment_with_failed_decrement (now : Nat)
    (wd : WebhookInfo) (s : SysState) (ref : String) (payment : PaymentRec)
    (quote : QuoteRec)
    (href : wd.externalReference = some ref)
    (hst : wd.status = "approved")
    (hp : findPaymentByRef s.payments ref = some payment)
    (hq : findQuoteById s.quotes payment.quote = some quote)
    (hfail : (decrementStock
      (quote.items.map fun it => ⟨it.product, it.quantity⟩)
      s.products).1.success = false) :
    (∃ p' ∈ (handlePaymentWebhook now wd s).1.payments,
      p'.id = payment.id ∧ p'.status = PaymentStatus.approved ∧
      p'.paidAt = some now) ∧
    (∃ q' ∈ (handlePaymentWebhook now wd s).1.quotes,
      q'.id = quote.id ∧ q'.status = QuoteStatus.paid) ∧
    (handlePaymentWebhook now wd s).1.products = s.products ∧
    (∃ errs, LogEvent.errorStockDecrementFailed payment.id quote.id errs ∈
      (handlePaymentWebhook now wd s).2) := by
  rw [handleWebhook_approved_spec now wd s ref payment quote href hst hp hq]
  refine ⟨?_, ?_, ?_, ?_⟩
  · exact ⟨{ payment with
        status := PaymentStatus.approved, paidAt := some now,
        webhookData := some wd },
      savePaymentDoc_approved_mem now payment _ s.payments rfl rfl
        (List.mem_of_find?_eq_some hp) rfl, rfl, rfl, rfl⟩
  · exact ⟨{ quote with status := QuoteStatus.paid },
      saveQuote_mem s.quotes _ quote (List.mem_of_find?_eq_some hq) rfl,
      rfl, rfl⟩
  · rcases decrementStock_spec
      (quote.items.map fun it => ⟨it.product, it.quantity⟩) s.products with
      ⟨_, hdb⟩ | ⟨hs', _, _, _⟩
    · exact hdb
    · rw [hfail] at hs'
      exact absurd hs' (by simp)
  · refine ⟨(decrementStock
      (quote.items.map fun it => ⟨it.product, it.quantity⟩)
      s.products).1.errors, ?_⟩
    rw [hfail]
    simp

/-- Example instance for the C4 witness: stock 1, quote requires 2, so the
post-payment decrement fails. -/
def dbC4 : DB := [⟨"prodB", "Producto B", 1, true⟩]

def payC4 : PaymentRec := ⟨"PAY4", "Q4", .pending, none, "ER4", none⟩

def quoteC4 : QuoteRec := ⟨"Q4", .pending, [⟨"prodB", 2⟩], 999, some "PAY4"⟩

def stateC4 : SysState := ⟨[payC4], [quoteC4], dbC4⟩

def wdC4 : WebhookInfo := ⟨"MP4", "approved", some "ER4"⟩

/-- Witness for C4 at a concrete state where the decrement fails. -/
theorem c4_witness :
    (∃ p' ∈ (handlePaymentWebhook 100 wdC4 stateC4).1.payments,
      p'.id = payC4.id ∧ p'.status = PaymentStatus.approved ∧
      p'.paidAt = some 100) ∧
    (∃ q' ∈ (handlePaymentWebhook 100 wdC4 stateC4).1.quotes,
      q'.id = quoteC4.id ∧ q'.status = QuoteStatus.paid) ∧
    (handlePaymentWebhook 100 wdC4 stateC4).1.products = stateC4.products ∧
    (∃ errs, LogEvent.errorStockDecrementFailed payC4.id quoteC4.id errs ∈
      (handlePaymentWebhook 100 wdC4 stateC4).2) :=
  c4_approved_payment_with_failed_decrement 100 wdC4 stateC4 "ER4" payC4
    quoteC4 rfl rfl rfl rfl (by decide)

/-- Example instance for C5: an `expired` quote whose pending payment later
gets an approved notification. -/
def dbC5 : DB := [⟨"prodC", "Producto C", 10, true⟩]

def payC5 : PaymentRec := ⟨"PAY5", "Q5", .pending, none, "ER5", none⟩

def quoteC5 : QuoteRec := ⟨"Q5", .expired, [⟨"prodC", 1⟩], 10, some "PAY5"⟩

def stateC5 : SysState := ⟨[payC5], [quoteC5], dbC5⟩

def wdC5 : WebhookInfo := ⟨"MP5", "approved", some "ER5"⟩

/-- C5 counterexample: a quote whose current status is `expired` (terminal,
not pending) transitions to `paid` when an approved-payment notification is
reconciled — refuting "MarkPaid is allowed only from pending" and "the only
transitions are pending→paid, pending→cancelled, pending→expired". -/
theorem c5_counterexample_expired_to_paid :
    quoteC5.status = QuoteStatus.expired ∧
    (findQuoteById ((handlePaymentWebhook 100 wdC5 stateC5).1).quotes
      "Q5").map QuoteRec.status = some QuoteStatus.paid := by
  decide

/-- C5 (amended): Cancel is allowed only from `pending` — any other current
status is rejected with the invalid-state error and the collection is
unchanged — and from `pending` it moves the quote to `cancelled`; but the
reconciler's MarkPaid is applied unconditionally: whenever an approved
notification correlates to a payment whose quote exists, that quote is set to
`paid` regardless of its current status (so `expired→paid` and
`cancelled→paid` are also reachable). -/
theorem c5_amended_transitions :
    (∀ (qs : List QuoteRec) (qid : String) (quote : QuoteRec),
      findQuoteById qs qid = some quote → quote.status ≠ QuoteStatus.pending →
      cancelQuote qid qs = (CancelOutcome.invalidState quote.status, qs)) ∧
    (∀ (qs : List QuoteRec) (qid : String) (quote : QuoteRec),
      findQuoteById qs qid = some quote → quote.status = QuoteStatus.pending →
      cancelQuote qid qs =
        (CancelOutcome.cancelledOk,
         saveQuote qs { quote with status := QuoteStatus.cancelled })) ∧
    (∀ (now : Nat) (wd : WebhookInfo) (s : SysState) (ref : String)
      (payment : PaymentRec) (quote : QuoteRec),
      wd.externalReference = some ref → wd.status = "approved" →
      findPaymentByRef s.payments ref = some payment →
      findQuoteById s.quotes payment.quote = some quote →
      ∃ q' ∈ (handlePaymentWebhook now wd s).1.quotes,
        q'.id = quote.id ∧ q'.status = QuoteStatus.paid) := by
  refine ⟨?_, ?_, ?_⟩
  · intro qs qid quote hfind hstat
    simp [cancelQuote, hfind, hstat]
  · intro qs qid quote hfind hstat
    simp [cancelQuote, hfind, hstat]
  · intro now wd s ref payment quote href hst hp hq
    rw [handleWebhook_approved_spec now wd s ref payment quote href hst hp hq]
    exact ⟨{ quote with status := QuoteStatus.paid },
      saveQuote_mem s.quotes _ quote (List.mem_of_find?_eq_some hq) rfl,
      rfl, rfl⟩

/-- Witness for the amended C5 at concrete states. -/
theorem c5_witness :
    cancelQuote "Q5" [quoteC5] =
      (CancelOutcome.invalidState quoteC5.status, [quoteC5]) ∧
    (∃ q' ∈ (handlePaymentWebhook 100 wdC5 stateC5).1.quotes,
      q'.id = quoteC5.id ∧ q'.status = QuoteStatus.paid) :=
  ⟨c5_amended_transitions.1 [quoteC5] "Q5" quoteC5 rfl (by decide),
   c5_amended_transitions.2.2 100 wdC5 stateC5 "ER5" payC5 quoteC5
     rfl rfl rfl rfl⟩

/-- C6: at most one Payment per quote. The storage layer alone (the unique
index on `Payment.quote`) preserves per-quote uniqueness for any insert; two
racing creates that both pass the application check still cannot both insert
(the second insert fails at the index); and a second save for a quote that
already has a payment fails with the PaymentAlreadyExists error of the
pre-save check. -/
theorem c6_payment_per_quote_unique :
    (∀ (store : List PaymentDoc) (d : PaymentDoc) (store' : List PaymentDoc),
      (store.map PaymentDoc.quote).Nodup →
      insertWithUniqueIndex store d = some store' →
      (store'.map PaymentDoc.quote).Nodup) ∧
    (∀ (store : List PaymentDoc) (d1 d2 : PaymentDoc)
      (store1 : List PaymentDoc),
      d1.quote = d2.quote →
      insertWithUniqueIndex store d1 = some store1 →
      insertWithUniqueIndex store1 d2 = none) ∧
    (∀ (store : List PaymentDoc) (d1 d2 : PaymentDoc),
      d1.quote = d2.quote → d1.id ≠ d2.id → d1 ∈ store →
      savePaymentForQuote store d2 =
        .error "Ya existe un pago para este presupuesto") := by
  refine ⟨?_, ?_, ?_⟩
  · intro store d store' hnd hins
    unfold insertWithUniqueIndex at hins
    by_cases hany : (store.any fun p => p.quote == d.quote) = true
    · rw [if_pos hany] at hins
      exact absurd hins (by simp)
    · rw [if_neg hany] at hins
      rw [Option.some_inj] at hins
      subst hins
      rw [List.map_append]
      simp only [List.any_eq_true, Bool.not_eq_true] at hany
      push_neg at hany
      rw [List.nodup_append]
      refine ⟨hnd, List.nodup_singleton _, ?_⟩
      intro a ha hb
      simp at hb
      obtain ⟨x, hx, hxq⟩ := List.mem_map.mp ha
      have := hany x hx
      rw [hb] at hxq
      simp [hxq] at this
  · intro store d1 d2 store1 heq hins
    unfold insertWithUniqueIndex at hins ⊢
    by_cases hany : (store.any fun p => p.quote == d1.quote) = true
    · rw [if_pos hany] at hins
      exact absurd hins (by simp)
    · rw [if_neg hany] at hins
      rw [Option.some_inj] at hins
      subst hins
      rw [if_pos]
      rw [List.any_append]
      simp [heq]
  · intro store d1 d2 heq hid hd1
    unfold savePaymentForQuote
    rw [if_pos]
    unfold preSaveQuoteCheck
    rw [List.any_eq_true]
    exact ⟨d1, hd1, by simp [heq, hid]⟩

/-- Witness for C6 at a concrete store. -/
theorem c6_witness :
    insertWithUniqueIndex [PaymentDoc.mk "a" "Q1"] ⟨"b", "Q1"⟩ = none ∧
    savePaymentForQuote [PaymentDoc.mk "a" "Q1"] ⟨"b", "Q1"⟩ =
      .error "Ya existe un pago para este presupuesto" :=
  ⟨c6_payment_per_quote_unique.2.1 [] ⟨"a", "Q1"⟩ ⟨"b", "Q1"⟩
     [PaymentDoc.mk "a" "Q1"] rfl rfl,
   c6_payment_per_quote_unique.2.2 [PaymentDoc.mk "a" "Q1"] ⟨"a", "Q1"⟩
     ⟨"b", "Q1"⟩ rfl (by decide) (by decide)⟩

/-- C7: the implemented totals (subtotal, then subtract the discount amount,
then add the tax amount, rounding both results half-up to 2 decimals at the
final step) coincide with the spec formula
subtotal·(1−d/100) and afterDiscount·(1+t/100); and the worked example —
one line of unit price 100 and quantity 2 with discount 10 and tax 21 —
yields subtotal 200 and total 217.80. -/
theorem c7_totals (items : List QuoteLine) (discount tax : ℚ)
    (hd0 : 0 ≤ discount) (hd1 : discount ≤ 100)
    (ht0 : 0 ≤ tax) (ht1 : tax ≤ 100) :
    calculateTotals items discount tax = specTotals items discount tax ∧
    calculateTotals [⟨100, 2⟩] 10 21 = (200, 1089/5) := by
  constructor
  · simp only [calculateTotals, specTotals]
    rw [Prod.mk.injEq]
    exact ⟨rfl, congrArg round2 (by ring)⟩
  · simp only [calculateTotals, List.map_cons, List.map_nil, List.sum_cons,
      List.sum_nil, round2_intFloor]
    norm_num

/-- Witness for C7 at the worked example values. -/
theorem c7_witness :
    (0 : ℚ) ≤ 10 ∧ (10 : ℚ) ≤ 100 ∧ (0 : ℚ) ≤ 21 ∧ (21 : ℚ) ≤ 100 ∧
    calculateTotals [⟨100, 2⟩] 10 21 = specTotals [⟨100, 2⟩] 10 21 :=
  ⟨by norm_num, by norm_num, by norm_num, by norm_num,
   (c7_totals [⟨100, 2⟩] 10 21 (by norm_num) (by norm_num) (by norm_num)
     (by norm_num)).1⟩

/-- C8: `expireOldQuotes now` maps every quote through `expireOne now`, which
moves exactly the pending quotes whose expiration is ≤ now to `expired`,
leaves non-pending quotes and not-yet-due quotes untouched, and the bulk
operation is idempotent. -/
theorem c8_expire_due (now : Nat) (qs : List QuoteRec) :
    expireOldQuotes now qs = qs.map (expireOne now) ∧
    (∀ q : QuoteRec, q.status = QuoteStatus.pending → q.expiresAt ≤ now →
      expireOne now q = { q with status := QuoteStatus.expired }) ∧
    (∀ q : QuoteRec, q.status ≠ QuoteStatus.pending → expireOne now q = q) ∧
    (∀ q : QuoteRec, ¬ q.expiresAt ≤ now → expireOne now q = q) ∧
    expireOldQuotes now (expireOldQuotes now qs) = expireOldQuotes now qs := by
  refine ⟨rfl, ?_, ?_, ?_, ?_⟩
  · intro q h1 h2
    simp [expireOne, h1, h2]
  · intro q h1
    simp [expireOne, h1]
  · intro q h1
    simp [expireOne, h1]
  · unfold expireOldQuotes
    rw [List.map_map]
    apply List.map_congr_left
    intro q _
    show expireOne now (expireOne now q) = expireOne now q
    by_cases h : q.status = QuoteStatus.pending ∧ q.expiresAt ≤ now
    · simp [expireOne, h]
    · simp [expireOne, h]

/-- Example quotes for the C8 witness: one due pending quote, one paid. -/
def quoteC8a : QuoteRec := ⟨"Q8a", .pending, [], 50, none⟩

def quoteC8b : QuoteRec := ⟨"Q8b", .paid, [], 50, none⟩

/-- Witness for C8 at concrete quotes. -/
theorem c8_witness :
    expireOne 100 quoteC8a = { quoteC8a with status := QuoteStatus.expired } ∧
    expireOne 100 quoteC8b = quoteC8b ∧
    expireOldQuotes 100 (expireOldQuotes 100 [quoteC8a, quoteC8b]) =
      expireOldQuotes 100 [quoteC8a, quoteC8b] :=
  ⟨(c8_expire_due 100 [quoteC8a, quoteC8b]).2.1 quoteC8a rfl (by decide),
   (c8_expire_due 100 [quoteC8a, quoteC8b]).2.2.1 quoteC8b (by decide),
   (c8_expire_due 100 [quoteC8a, quoteC8b]).2.2.2.2⟩

/-- Example input for C9: an otherwise-valid creation request that also
carries top-level `subtotal` and `total` fields. -/
def inputC9 : CreateQuoteInput :=
  ⟨some ⟨some "Juan Perez", none, none⟩,
   some [⟨some "507f1f77bcf86cd799439011", some 2, false, false, false⟩],
   none, none, none, false, false, false, false, false, true, true⟩

/-- C9 counterexample: a creation request carrying the computed totals
(top-level `subtotal` and `total`) passes `createQuoteValidation` with no
errors — those two fields are not rejected (no chain inspects them), refuting
"computed totals … are rejected if present". -/
theorem c9_counterexample_totals_not_rejected :
    inputC9.subtotalField = true ∧ inputC9.totalField = true ∧
    createQuoteValidationErrors inputC9 = [] := by
  decide

/-- C9 (amended): caller-supplied `quoteNumber`, `_id`, `createdAt`,
`updatedAt`, `expiresAt` — and the per-item system fields, in particular each
item's `subtotal` — are rejected when present; but the top-level computed
totals `subtotal` and `total` are not inspected by the validation at all (its
outcome is invariant under their presence); they are ignored and recomputed by
the pre-save hook instead. -/
theorem c9_amended_system_fields (inp : CreateQuoteInput) :
    (inp.quoteNumberField = true →
      "Este campo se genera automáticamente, no debe enviarse" ∈
        createQuoteValidationErrors inp) ∧
    (inp.idField = true →
      "Este campo se genera automáticamente, no debe enviarse" ∈
        createQuoteValidationErrors inp) ∧
    (inp.createdAtField = true →
      "Este campo se genera automáticamente, no debe enviarse" ∈
        createQuoteValidationErrors inp) ∧
    (inp.updatedAtField = true →
      "Este campo se genera automáticamente, no debe enviarse" ∈
        createQuoteValidationErrors inp) ∧
    (inp.expiresAtField = true →
      "Este campo se genera automáticamente, no debe enviarse" ∈
        createQuoteValidationErrors inp) ∧
    (∀ b1 b2, createQuoteValidationErrors
      { inp with subtotalField := b1, totalField := b2 } =
      createQuoteValidationErrors inp) ∧
    (∀ its it, inp.items = some its → it ∈ its → it.subtotalField = true →
      "items.subtotal se calcula automáticamente" ∈
        createQuoteValidationErrors inp) := by
  refine ⟨?_, ?_, ?_, ?_, ?_, ?_, ?_⟩
  · intro h
    simp [createQuoteValidationErrors, h]
  · intro h
    simp [createQuoteValidationErrors, h]
  · intro h
    simp [createQuoteValidationErrors, h]
  · intro h
    simp [createQuoteValidationErrors, h]
  · intro h
    simp [createQuoteValidationErrors, h]
  · intro b1 b2
    rfl
  · intro its it hits hmem hsub
    have hin : "items.subtotal se calcula automáticamente" ∈
        itemInputErrors it := by
      simp [itemInputErrors, hsub]
    simp [createQuoteValidationErrors, hits, List.mem_flatMap]
    exact Or.inr (Or.inr (Or.inl ⟨it, hmem, hin⟩))

/-- `inputC9` with a caller-supplied `quoteNumber` present. -/
def inputC9qn : CreateQuoteInput := { inputC9 with quoteNumberField := true }

/-- Witness for the amended C9 at a concrete input. -/
theorem c9_witness :
    inputC9qn.quoteNumberField = true ∧
    "Este campo se genera automáticamente, no debe enviarse" ∈
      createQuoteValidationErrors inputC9qn :=
  ⟨rfl, (c9_amended_system_fields inputC9qn).1 rfl⟩

/-- C10: a product that exists but is inactive is treated as not found by the
ledger: Validate reports it as a failing item (`Producto no encontrado`,
available 0) and is invalid, Decrement fails with the validation-failure
transaction error and changes nothing, and Increment fails with its
transaction error and changes nothing — regardless of the product's stock. -/
theorem c10_inactive_products_not_resolved (db : DB) (p : ProductRec)
    (items : List StockItem) (it : StockItem)
    (hnd : (db.map ProductRec.id).Nodup) (hp : p ∈ db)
    (hin : p.isActive = false) (hit : it ∈ items) (hid : it.productId = p.id) :
    (⟨it.productId, "Producto no encontrado", it.quantity, 0⟩ ∈
      (validateStock items db).errors) ∧
    (validateStock items db).isValid = false ∧
    decrementStock items db =
      (generalErrorResult "Validación de stock fallida", db) ∧
    incrementStock items db =
      (generalErrorResult "Error en incremento de stock", db) := by
  have hfa : findActive db it.productId = none := by
    rw [hid]
    exact findActive_eq_none_of_inactive db p hnd hp hin
  have hmemErr : (⟨it.productId, "Producto no encontrado", it.quantity, 0⟩ :
      StockValidationError) ∈ (validateStock items db).errors := by
    show _ ∈ (validateStock items db).2
    unfold validateStock
    exact List.mem_filterMap.mpr ⟨it, hit, by simp [hfa]⟩
  have hinvalid : (validateStock items db).isValid = false := by
    have hne : (validateStock items db).errors ≠ [] :=
      List.ne_nil_of_mem hmemErr
    have hiv : (validateStock items db).isValid =
        (validateStock items db).errors.isEmpty := rfl
    rw [hiv, List.isEmpty_eq_false]
    exact hne
  exact ⟨hmemErr, hinvalid, decrementStock_invalid items db hinvalid,
    incrementStock_missing items db it hit hfa⟩

/-- Example database for the C10 witness: an inactive product with plenty of
stock. -/
def dbC10 : DB := [⟨"p10", "Inactivo", 50, false⟩]

/-- Witness for C10 at a concrete inactive product with sufficient stock. -/
theorem c10_witness :
    (⟨"p10", "Producto no encontrado", 2, 0⟩ ∈
      (validateStock [⟨"p10", 2⟩] dbC10).errors) ∧
    (validateStock [⟨"p10", 2⟩] dbC10).isValid = false ∧
    decrementStock [⟨"p10", 2⟩] dbC10 =
      (generalErrorResult "Validación de stock fallida", dbC10) ∧
    incrementStock [⟨"p10", 2⟩] dbC10 =
      (generalErrorResult "Error en incremento de stock", dbC10) :=
  c10_inactive_products_not_resolved dbC10 ⟨"p10", "Inactivo", 50, false⟩
    [⟨"p10", 2⟩] ⟨"p10", 2⟩ (by decide) (by decide) rfl (by decide) rfl

end BudgetGen
